import Mathlib

/-!
Shallow embedding of the core of `mpl-grid-configurator`'s frontend:
the layout tree (`src/frontend/src/lib/layout.tsx`), the pure edit
callbacks (`useGridCallbacks` in `src/frontend/src/lib/history.tsx`),
the reversible remote commands (`src/frontend/src/lib/apiCalls.tsx`),
the undo/redo history engine (`useHistory` in `src/unnamed/part_014`),
the layout-action wrappers (`src/frontend/src/lib/actions.tsx`) and the
resize coalescer (`src/frontend/src/lib/restructure.tsx`).

Modelling conventions:
* JS numbers (ratios, figure sizes) are embedded as `ℚ`.
* Asynchronous remote calls returning `FullResponse | null` are embedded
  as their `Option FullResponse` return value; a command's `do()`/`undo()`
  closures are deterministic in the source (fixed request, one server
  state), so a command is embedded by the pair of values its closures
  return.  Each executed round trip is counted in a `remoteCalls` field
  so that call-count statements ("no retry", "no server call") can be
  expressed.
* Thrown `Error`s are embedded as `Except String`.
-/

namespace MplGrid

/-- `Orient` from `layout.tsx`: the `"row" | "column"` string union. -/
inductive Orient where
  | row
  | column
deriving DecidableEq, Repr

/-- `Ratios` from `layout.tsx`: a `[number, number]` tuple. -/
abbrev Ratios : Type := ℚ × ℚ

/-- `FigureSize` (also called `FigSize`) from `layout.tsx`:
a `[number, number]` tuple of width and height. -/
abbrev FigSize : Type := ℚ × ℚ

/-- `LPath` from `layout.tsx`: a path of child indices (`number[]`).
Valid paths only contain the binary indices 0 and 1. -/
abbrev LPath : Type := List Nat

/-- `Layout` from `layout.tsx`: `string | LayoutNode`, i.e. either a leaf
holding a drawing-function identifier or a split node
`{ orient, children: [Layout, Layout], ratios }`.  The two-element
`children` tuple is embedded as the `left`/`right` arguments. -/
inductive Layout where
  | leaf (id : String)
  | node (orient : Orient) (left right : Layout) (ratios : Ratios)
deriving DecidableEq, Repr

/-- The record view of a split node, as produced by `getNode`:
`{ orient, children: [left, right], ratios }`. -/
structure LayoutNode where
  orient : Orient
  left : Layout
  right : Layout
  ratios : Ratios
deriving DecidableEq, Repr

/-- Reassemble a `LayoutNode` record into a `Layout` value. -/
def LayoutNode.toLayout (n : LayoutNode) : Layout :=
  .node n.orient n.left n.right n.ratios

/-- `children[i]` on a split node's two-element tuple: index 0 is the left
child, index 1 the right child; any other index is out of range (JS would
yield `undefined`). -/
def childAt (left right : Layout) (i : Nat) : Option Layout :=
  if i = 0 then some left else if i = 1 then some right else none

/-- `getAt` from `layout.tsx`: walk `path` from `layout`, failing when a
non-terminal step lands on a leaf.  The source throws two wordings of the
same invalid-path error (one for the root check, one inside the loop);
they are collapsed into one message here, and an out-of-range child index
(JS `undefined`) is likewise surfaced as an error — every caller in scope
rejects a non-object/non-string result.  No claim depends on the message
texts of `getAt` itself. -/
def getAt : Layout → LPath → Except String Layout
  | target, [] => .ok target
  | .leaf _, _ :: _ => .error "Invalid path: must be object"
  | .node _ left right _, i :: rest =>
    match childAt left right i with
    | some child => getAt child rest
    | none => .error "Invalid path: undefined child"

/-- `getNode` from `layout.tsx`: `getAt`, then require a split node. -/
def getNode (layout : Layout) (path : LPath) : Except String LayoutNode :=
  match getAt layout path with
  | .error e => .error e
  | .ok (.leaf _) => .error "Invalid path: must be object at end"
  | .ok (.node o l r rs) => .ok ⟨o, l, r, rs⟩

/-- `getLeaf` from `layout.tsx`: `getAt`, then require a leaf. -/
def getLeaf (layout : Layout) (path : LPath) : Except String String :=
  match getAt layout path with
  | .error e => .error e
  | .ok (.leaf s) => .ok s
  | .ok (.node _ _ _ _) => .error "Invalid path: must be string at end"

/-- JS `list.slice(-n)`: the last `n` elements (the whole list when it is
shorter than `n`). -/
def jsSliceLast (n : Nat) (l : List α) : List α :=
  l.drop (l.length - n)

/-- Functional rendering of the mutation pattern
`getNode(tree, nodePath).children[ix] = f(children[ix])` shared by
`updateAtSubPath` (`f` is the caller's updater) and `handleDelete`
(`f` is constantly the sibling leaf): walk to the split node at
`nodePath`, rebuild the ancestors (copy-on-write), and replace its
child `ix`.  An out-of-range `ix` leaves both children untouched (in JS
it would create an extra tuple property invisible to the tree); valid
paths only produce `ix ∈ {0, 1}`. -/
def setChildOfNodeAt : Layout → LPath → Nat → (Layout → Layout) → Except String Layout
  | .leaf _, [], _, _ => .error "Invalid path: must be object at end"
  | .node o left right rs, [], ix, f =>
    .ok (.node o (if ix = 0 then f left else left)
                 (if ix = 1 then f right else right) rs)
  | .leaf _, _ :: _, _, _ => .error "Invalid path: must be object"
  | .node o left right rs, i :: rest, ix, f =>
    match childAt left right i with
    | some child =>
      match setChildOfNodeAt child rest ix f with
      | .ok newChild =>
        .ok (.node o (if i = 0 then newChild else left)
                     (if i = 1 then newChild else right) rs)
      | .error e => .error e
    | none => .error "Invalid path: undefined child"

/-- `updateAtSubPath` from `useGridCallbacks` (`history.tsx`): replace the
node at `path` by `updater` of it — at the root directly, otherwise by
assigning into the parent node's `children` tuple. -/
def updateAtSubPath (layout : Layout) (path : LPath) (updater : Layout → Layout) :
    Except String Layout :=
  if path.isEmpty then .ok (updater layout)
  else setChildOfNodeAt layout path.dropLast (path.getLastD 0) updater

/-- `handleSplit` from `useGridCallbacks` (`history.tsx`): replace the node
at `path` with a split of the requested orientation whose two children are
both the original node, ratio `[50, 50]`. -/
def handleSplit (layout : Layout) (path : LPath) (orient : Orient) :
    Except String Layout :=
  updateAtSubPath layout path
    (fun currentLeaf => .node orient currentLeaf currentLeaf (50, 50))

/-- `handleDelete` from `useGridCallbacks` (`history.tsx`): deleting the
node at `path` collapses its parent into the sibling; the sibling is read
with `getLeaf`, so it must be a leaf.  `parentIx` is the source's
`path[path.length - 2]`. -/
def handleDelete (layout : Layout) (path : LPath) : Except String Layout :=
  if path.isEmpty then .error "Cannot delete root"
  else
    let parentPath := path.dropLast
    let currIx := path.getLastD 0
    let siblingIx := if currIx = 0 then 1 else 0
    let siblingPath := parentPath ++ [siblingIx]
    match getLeaf layout siblingPath with
    | .error e => .error e
    | .ok siblingLeaf =>
      if parentPath.isEmpty then .ok (.leaf siblingLeaf)
      else
        let parentIx := path.getD (path.length - 2) 0
        let grandparentPath := parentPath.dropLast
        setChildOfNodeAt layout grandparentPath parentIx (fun _ => .leaf siblingLeaf)

/-- `FullResponse` from `api.tsx`: the body every successful edit/render
call returns, `{ token, figsize, layout, svg }`. -/
structure FullResponse where
  token : String
  figsize : FigSize
  layout : Layout
  svg : String
deriving DecidableEq, Repr

/-- `ApiCall<FullResponse | null>` from `apiCalls.tsx`: a reversible
command exposing `do()` and `undo()` closures.  Each closure performs one
fixed remote request against one server state, so it is embedded by the
`FullResponse | null` value it returns (`none` = the call failed). -/
structure ApiCall where
  doResult : Option FullResponse
  undoResult : Option FullResponse
deriving DecidableEq, Repr

/-- `HistoryActionType` from `part_014` (`useHistory`). -/
inductive HistoryActionType where
  | DELETE | INSERT | MERGE | REPLACE | RESIZE
  | RESTRUCTURE | ROTATE | SPLIT | SWAP
deriving DecidableEq, Repr

/-- `HistoryDelta` from `part_014`: `{ type, call }`. -/
structure HistoryDelta where
  type : HistoryActionType
  call : ApiCall
deriving DecidableEq, Repr

/-- The `present` field of the history state: `{ layout, figsize }`. -/
structure PresentState where
  layout : Layout
  figsize : FigSize
deriving DecidableEq, Repr

/-- `HistoryState` from `part_014`: `{ past, present, future }`. -/
structure HistoryState where
  past : List HistoryDelta
  present : PresentState
  future : List HistoryDelta
deriving DecidableEq, Repr

/-- `HistoryAction` from `part_014`: the reducer's action union. -/
inductive HistoryAction where
  | push (actionType : HistoryActionType) (call : ApiCall)
      (layout : Layout) (figsize : FigSize)
  | undo (layout : Layout) (figsize : FigSize)
  | redo (layout : Layout) (figsize : FigSize)
  | set (layout : Layout) (figsize : FigSize)
  | reset (layout : Layout) (figsize : FigSize)
deriving DecidableEq, Repr

/-- `historyReducer` from `part_014`.  JS list idioms:
`[...past, x]` = append, `.slice(-50)` = `jsSliceLast 50`,
`.slice(0, -1)` = `dropLast`, `[x, ...future]` = cons,
`.slice(1)` = `tail`.  The UNDO/REDO cases read `past[past.length - 1]` /
`future[0]` unguarded; they are only ever dispatched after the caller's
non-emptiness guard (`useHistory.undo`/`redo`), so the unreachable empty
case is embedded as returning the state unchanged. -/
def historyReducer (state : HistoryState) (action : HistoryAction) : HistoryState :=
  match action with
  | .push actionType call layout figsize =>
    { past := jsSliceLast 50 (state.past ++ [⟨actionType, call⟩])
      present := ⟨layout, figsize⟩
      future := [] }
  | .undo layout figsize =>
    match state.past.getLast? with
    | some undoDelta =>
      { past := state.past.dropLast
        present := ⟨layout, figsize⟩
        future := undoDelta :: state.future }
    | none => state
  | .redo layout figsize =>
    match state.future.head? with
    | some redoDelta =>
      { past := state.past ++ [redoDelta]
        present := ⟨layout, figsize⟩
        future := state.future.tail }
    | none => state
  | .set layout figsize =>
    { past := state.past, present := ⟨layout, figsize⟩, future := state.future }
  | .reset layout figsize =>
    { past := [], present := ⟨layout, figsize⟩, future := [] }

/-- Result of one history-engine operation: the surfaced
`FullResponse | null`, the state after any dispatch, and how many remote
round trips the operation performed. -/
structure StepResult where
  result : Option FullResponse
  state : HistoryState
  remoteCalls : Nat
deriving DecidableEq, Repr

/-- `executeAction` from `part_014`: build the command from the current
present, run its `do()` once, and on success dispatch PUSH; on failure
(`null`) no dispatch happens and `null` is surfaced. -/
def executeAction (state : HistoryState) (type : HistoryActionType)
    (apiCallBuilder : Layout → FigSize → ApiCall) : StepResult :=
  let apiCall := apiCallBuilder state.present.layout state.present.figsize
  match apiCall.doResult with
  | some res =>
    ⟨some res, historyReducer state (.push type apiCall res.layout res.figsize), 1⟩
  | none => ⟨none, state, 1⟩

/-- `undo` from `part_014`: no-op returning `null` on empty past
(`past.length === 0` is embedded as `getLast? = none`); otherwise run the
last entry's `undo()` once and dispatch UNDO only on success. -/
def historyUndo (state : HistoryState) : StepResult :=
  match state.past.getLast? with
  | none => ⟨none, state, 0⟩
  | some delta =>
    match delta.call.undoResult with
    | some res => ⟨some res, historyReducer state (.undo res.layout res.figsize), 1⟩
    | none => ⟨none, state, 1⟩

/-- `redo` from `part_014`: no-op returning `null` on empty future;
otherwise run the first future entry's `do()` once and dispatch REDO only
on success. -/
def historyRedo (state : HistoryState) : StepResult :=
  match state.future.head? with
  | none => ⟨none, state, 0⟩
  | some delta =>
    match delta.call.doResult with
    | some res => ⟨some res, historyReducer state (.redo res.layout res.figsize), 1⟩
    | none => ⟨none, state, 1⟩

/-- A sequence of `executeAction` calls (used to state the history
retention bound over many executed edits). -/
def execList (state : HistoryState) :
    List (HistoryActionType × (Layout → FigSize → ApiCall)) → HistoryState
  | [] => state
  | (t, b) :: rest => execList (executeAction state t b).state rest

/-- Helper for `jsSplit`: accumulate the current segment (in reverse)
while scanning the character list. -/
def jsSplitAux (sep : Char) : List Char → List Char → List String
  | [], acc => [String.mk acc.reverse]
  | c :: rest, acc =>
    if c = sep then String.mk acc.reverse :: jsSplitAux sep rest []
    else jsSplitAux sep rest (c :: acc)

/-- JS `s.split(sep)` for a single-character separator (the ids in this
code base are ASCII, so UTF-16 positions coincide with characters). -/
def jsSplit (s : String) (sep : Char) : List String :=
  jsSplitAux sep s.toList []

/-- JS `s.slice(0, -n)`: drop the last `n` characters. -/
def jsDropRight (s : String) (n : Nat) : String :=
  String.mk (s.toList.take (s.toList.length - n))

/-- JS `Number(s)` on the decimal-digit segments of a panel id.  Panel
ids produced by the UI are `"panel"` followed by `-0` / `-1` steps, so
the segments fed to `Number` are always digit strings; non-digit input
(JS `NaN`) never occurs there and is not modelled. -/
def jsNumberNat (s : String) : Nat :=
  s.toList.foldl (fun acc c => acc * 10 + (c.toNat - 48)) 0

/-- The id-to-path parsing idiom `pathId.split("-").slice(1).map(Number)`
used throughout `actions.tsx` and `restructure.tsx`. -/
def parsePathId (pathId : String) : LPath :=
  ((jsSplit pathId '-').drop 1).map jsNumberNat

/-- `useLayoutActions.swap` from `actions.tsx`: identical path ids are a
no-op (`if (pA === pB) return;`), otherwise parse both ids and execute a
SWAP through the history engine.  `swapCall` stands for
`apiCalls.swap(·, ·, sessionToken)`; the source builder ignores the
layout/figsize arguments, hence `fun _ _ => …`.  Returns the resulting
history state and the number of remote calls performed. -/
def actionsSwap (state : HistoryState) (pA pB : String)
    (swapCall : LPath → LPath → ApiCall) : HistoryState × Nat :=
  if pA = pB then (state, 0)
  else
    let pathA := parsePathId pA
    let pathB := parsePathId pB
    let step := executeAction state .SWAP (fun _ _ => swapCall pathA pathB)
    (step.state, step.remoteCalls)

/-- `useLayoutActions.merge` from `actions.tsx`: identical path ids, or
ids whose `slice(0, -2)` prefixes coincide (already siblings), are no-ops;
otherwise parse both ids and execute a MERGE through the history engine.
`mergeCall` stands for `apiCalls.merge(·, ·, sessionToken)`. -/
def actionsMerge (state : HistoryState) (pAId pBId : String)
    (mergeCall : LPath → LPath → ApiCall) : HistoryState × Nat :=
  if pAId = pBId then (state, 0)
  else if jsDropRight pAId 2 = jsDropRight pBId 2 then (state, 0)
  else
    let pathA := parsePathId pAId
    let pathB := parsePathId pBId
    let step := executeAction state .MERGE (fun _ _ => mergeCall pathA pathB)
    (step.state, step.remoteCalls)

/-- The remote edit requests relevant to the delete command: the bodies
`apiCalls.delete` sends through `api.edit.delete` / `api.edit.insert`
(the session token, identical on both, is elided). -/
inductive EditRequest where
  | deleteReq (path : LPath)
  | insertReq (path : LPath) (orient : Orient) (ratios : Ratios) (value : String)
deriving DecidableEq, Repr

/-- A reversible command described by the fixed requests its `do()` and
`undo()` closures issue (sufficient for `apiCalls.delete`, whose two
closures are built from values captured at build time). -/
structure RequestCall where
  doReq : EditRequest
  undoReq : EditRequest
deriving DecidableEq, Repr

/-- `apiCalls.delete` from `apiCalls.tsx`: read the parent's orientation
and ratios and the deleted leaf (`getLeaf(parent, path.slice(-1))` — this
throws when the node at `path` is a split), then return the
`do = delete(path)` / `undo = insert(path, orient, ratios, leaf)`
command.  The thrown errors escape the builder, hence `Except`. -/
def apiCallsDelete (layout : Layout) (path : LPath) : Except String RequestCall :=
  let parentPath := path.dropLast
  match getNode layout parentPath with
  | .error e => .error e
  | .ok parent =>
    match getLeaf parent.toLayout (jsSliceLast 1 path) with
    | .error e => .error e
    | .ok leaf =>
      .ok ⟨.deleteReq path, .insertReq path parent.orient parent.ratios leaf⟩

/-- The opaque inverse payload `[string, {[key: string]: any}][]` the
merge endpoint returns.  It is threaded through unexamined, so the `any`
values are embedded as opaque strings. -/
abbrev InverseDescriptor : Type := List (String × List (String × String))

/-- `MergeResponse` from `api.tsx`: a `FullResponse` plus the opaque
`inverse` payload. -/
structure MergeResponse where
  token : String
  figsize : FigSize
  layout : Layout
  svg : String
  inverse : InverseDescriptor
deriving DecidableEq, Repr

/-- The server as seen by one merge command: the (deterministic) result
of `api.edit.merge(pathA, pathB, token)` and of
`api.edit.unmerge(·, token)`. -/
structure MergeEnv where
  mergeResult : Option MergeResponse
  unmergeResult : InverseDescriptor → Option FullResponse

/-- The closure state of `apiCalls.merge`: `let undoData: … | null`. -/
structure MergeCommandState where
  undoData : Option InverseDescriptor
deriving DecidableEq, Repr

/-- `apiCalls.merge` initial closure state: `undoData = null`. -/
def mergeInitialState : MergeCommandState := ⟨none⟩

/-- The `do()` closure of `apiCalls.merge`: call the merge endpoint; on
failure return `null` leaving `undoData` untouched, on success store the
inverse payload and return the `FullResponse` part. -/
def mergeDo (env : MergeEnv) (c : MergeCommandState) :
    Option FullResponse × MergeCommandState :=
  match env.mergeResult with
  | none => (none, c)
  | some res => (some ⟨res.token, res.figsize, res.layout, res.svg⟩, ⟨some res.inverse⟩)

/-- The `undo()` closure of `apiCalls.merge`: without stored `undoData`
it logs an error and returns `null` issuing no request; otherwise it
issues one unmerge request.  The `Nat` counts unmerge round trips. -/
def mergeUndo (env : MergeEnv) (c : MergeCommandState) :
    Option FullResponse × MergeCommandState × Nat :=
  match c.undoData with
  | none => (none, c, 0)
  | some undoData => (env.unmergeResult undoData, c, 1)

/-- `RESIZE_EPSILON` from `const.tsx`. -/
def RESIZE_EPSILON : ℚ := 1 / 100

/-- `didResize` from `restructure.tsx`:
`oldRatios.some((val, idx) => Math.abs(val - newRatios[idx]) > RESIZE_EPSILON)`. -/
def didResize (oldRatios newRatios : Ratios) : Bool :=
  decide (RESIZE_EPSILON < |oldRatios.1 - newRatios.1|) ||
  decide (RESIZE_EPSILON < |oldRatios.2 - newRatios.2|)

/-- What `restructureCallback` decides: return early without scheduling,
or hand `[parentPathId, ratios]` to the debounced setter of the given
axis (which is what later commits a RESTRUCTURE history entry and server
call). -/
inductive RestructureOutcome where
  | noSchedule
  | schedule (orient : Orient) (parentPathId : String) (ratios : Ratios)
deriving DecidableEq, Repr

/-- `restructureCallback` from `restructure.tsx`.  The
`react-resizable-panels` layout object `{[panelId]: size}` is embedded as
an association list in key order; `Object.keys(…)[0]` is its first key
and `Object.values(…)` destructures into the first two sizes.  The
callback drops proposals within `RESIZE_EPSILON` of the split's current
ratios (and of the pending debounced value, if any) and otherwise
schedules the debounced setter for the split's axis. -/
def restructureCallback (layout : Layout)
    (rowRestructure columnRestructure : Option (String × Ratios))
    (restructuredLayout : List (String × ℚ)) : Except String RestructureOutcome :=
  match restructuredLayout.head? with
  | none => .error "Invalid resized layout: no keys"
  | some (firstKey, _) =>
    let parentPathId := jsDropRight firstKey 2
    let parentPath := parsePathId parentPathId
    let vals := restructuredLayout.map (fun kv => kv.2)
    let leftUp := vals.getD 0 0
    let rightDown := vals.getD 1 0
    match getNode layout parentPath with
    | .error e => .error e
    | .ok parentNode =>
      if !(didResize parentNode.ratios (leftUp, rightDown)) then .ok .noSchedule
      else
        let prevValue :=
          match parentNode.orient with
          | .row => rowRestructure
          | .column => columnRestructure
        match prevValue with
        | some prev =>
          if !(didResize prev.2 (leftUp, rightDown)) then .ok .noSchedule
          else .ok (.schedule parentNode.orient parentPathId (leftUp, rightDown))
        | none => .ok (.schedule parentNode.orient parentPathId (leftUp, rightDown))

/-- Modelled from the spec's words for the refinement statements
("replaces the node at `path` with …", "replaces the parent of `path`
with …"): total structural replacement of the subtree at `path`,
leaving everything else unchanged.  This is the specification-side
definition the edit callbacks are compared against. -/
def specReplaceAt : Layout → LPath → Layout → Option Layout
  | _, [], val => some val
  | .leaf _, _ :: _, _ => none
  | .node o left right rs, i :: rest, val =>
    if i = 0 then (specReplaceAt left rest val).map (fun l2 => .node o l2 right rs)
    else if i = 1 then (specReplaceAt right rest val).map (fun r2 => .node o left r2 rs)
    else none

/-! ### Helper lemmas -/

lemma jsSliceLast_length (n : Nat) (l : List α) :
    (jsSliceLast n l).length = min n l.length := by
  simp only [jsSliceLast, List.length_drop]
  omega

lemma jsSliceLast_concat_getLast? (n : Nat) (hn : 0 < n) (l : List α) (x : α) :
    (jsSliceLast n (l ++ [x])).getLast? = some x := by
  unfold jsSliceLast
  have hle : (l ++ [x]).length - n ≤ l.length := by
    simp only [List.length_append, List.length_singleton]
    omega
  rw [List.drop_append_of_le_length hle]
  simp [List.getLast?_append]

lemma getAt_append (l : Layout) (p q : LPath) :
    getAt l (p ++ q) =
      match getAt l p with
      | .ok t => getAt t q
      | .error e => .error e := by
  induction p generalizing l with
  | nil => simp [getAt]
  | cons i p' ih =>
    cases l with
    | leaf id => simp [getAt]
    | node o a b rs =>
      simp only [List.cons_append, getAt]
      cases hc : childAt a b i with
      | some child => simp [ih]
      | none => simp

lemma getNode_eq_ok {l : Layout} {p : LPath} {n : LayoutNode}
    (h : getNode l p = .ok n) : getAt l p = .ok n.toLayout := by
  unfold getNode at h
  cases hg : getAt l p with
  | error e => rw [hg] at h; exact absurd h (by simp)
  | ok t =>
    cases t with
    | leaf id => rw [hg] at h; exact absurd h (by simp)
    | node o a b rs =>
      rw [hg] at h
      simp only [Except.ok.injEq] at h
      subst h
      rfl

lemma getLeaf_eq_ok {l : Layout} {p : LPath} {v : String} :
    getLeaf l p = .ok v ↔ getAt l p = .ok (.leaf v) := by
  unfold getLeaf
  cases hg : getAt l p with
  | error e => simp
  | ok t => cases t <;> simp

lemma getLeaf_of_node {l : Layout} {p : LPath} {o : Orient} {a b : Layout}
    {rs : Ratios} (h : getAt l p = .ok (.node o a b rs)) :
    getLeaf l p = .error "Invalid path: must be string at end" := by
  simp [getLeaf, h]

lemma setChildOfNodeAt_spec (p : LPath) :
    ∀ (layout : Layout) (ix : Nat) (f : Layout → Layout) (cur : Layout),
      getAt layout (p ++ [ix]) = .ok cur →
      ∃ t', specReplaceAt layout (p ++ [ix]) (f cur) = some t' ∧
        setChildOfNodeAt layout p ix f = .ok t' := by
  induction p with
  | nil =>
    intro layout ix f cur h
    cases layout with
    | leaf id => simp [getAt] at h
    | node o a b rs =>
      simp only [List.nil_append, getAt] at h
      by_cases h0 : ix = 0
      · subst h0
        simp only [childAt, if_pos rfl, getAt] at h
        cases h
        exact ⟨.node o (f cur) b rs, by simp [specReplaceAt],
          by simp [setChildOfNodeAt]⟩
      · by_cases h1 : ix = 1
        · subst h1
          simp only [childAt, getAt] at h
          norm_num at h
          cases h
          exact ⟨.node o a (f cur) rs, by simp [specReplaceAt],
            by simp [setChildOfNodeAt]⟩
        · simp [childAt, h0, h1] at h
  | cons i p' ih =>
    intro layout ix f cur h
    cases layout with
    | leaf id => simp [getAt] at h
    | node o a b rs =>
      simp only [List.cons_append, getAt] at h
      by_cases h0 : i = 0
      · subst h0
        simp only [childAt, if_pos rfl] at h
        obtain ⟨t', hspec, hset⟩ := ih a ix f cur h
        exact ⟨.node o t' b rs, by simp [specReplaceAt, hspec],
          by simp [setChildOfNodeAt, childAt, hset]⟩
      · by_cases h1 : i = 1
        · subst h1
          simp only [childAt] at h
          norm_num at h
          obtain ⟨t', hspec, hset⟩ := ih b ix f cur h
          exact ⟨.node o a t' rs, by simp [specReplaceAt, hspec, h0],
            by simp [setChildOfNodeAt, childAt, h0, hset]⟩
        · simp [childAt, h0, h1] at h

lemma executeAction_success (s : HistoryState) (t : HistoryActionType)
    (b : Layout → FigSize → ApiCall) (r : FullResponse)
    (h : (b s.present.layout s.present.figsize).doResult = some r) :
    executeAction s t b =
      ⟨some r,
       ⟨jsSliceLast 50 (s.past ++ [⟨t, b s.present.layout s.present.figsize⟩]),
        ⟨r.layout, r.figsize⟩, []⟩, 1⟩ := by
  simp [executeAction, historyReducer, h]

lemma execList_past_length (ops : List (HistoryActionType × (Layout → FigSize → ApiCall))) :
    ∀ s : HistoryState, s.past.length ≤ 50 →
      (∀ p ∈ ops, ∀ l f, ((p.2) l f).doResult.isSome) →
      (execList s ops).past.length = min (s.past.length + ops.length) 50 := by
  induction ops with
  | nil =>
    intro s hs _
    simp only [execList, List.length_nil]
    omega
  | cons p rest ih =>
    intro s hs hall
    obtain ⟨t, b⟩ := p
    obtain ⟨r, hr⟩ := Option.isSome_iff_exists.mp
      (hall (t, b) (by simp) s.present.layout s.present.figsize)
    rw [execList, executeAction_success s t b r hr]
    dsimp only
    have hnew : (jsSliceLast 50 (s.past ++ [⟨t, b s.present.layout s.present.figsize⟩])).length
        = min 50 (s.past.length + 1) := by
      rw [jsSliceLast_length]
      simp
    have hrec := ih
      ⟨jsSliceLast 50 (s.past ++ [(⟨t, b s.present.layout s.present.figsize⟩ : HistoryDelta)]),
        ⟨r.layout, r.figsize⟩, []⟩
      (by dsimp only; rw [hnew]; omega)
      (fun q hq => hall q (List.mem_cons_of_mem _ hq))
    dsimp only at hrec
    rw [hrec, hnew]
    simp only [List.length_cons]
    omega

lemma specReplaceAt_nil (l : Layout) (val : Layout) :
    specReplaceAt l [] val = some val := by
  cases l <;> rfl

/-! ### Concrete fixtures used by the witnesses -/

/-- A small split layout (the spec's scenario tree). -/
def sampleLayout : Layout :=
  .node .row (.leaf "draw_empty") (.leaf "draw_scatter") (50, 50)

/-- A successful server response. -/
def sampleResponse : FullResponse := ⟨"tok", (6, 4), sampleLayout, "svg"⟩

/-- A command whose `do()` and `undo()` both succeed. -/
def sampleCall : ApiCall := ⟨some sampleResponse, some sampleResponse⟩

/-- A command whose `do()` and `undo()` both fail (return `null`). -/
def failCall : ApiCall := ⟨none, none⟩

/-- A history state with an empty past and future. -/
def sampleState : HistoryState := ⟨[], ⟨.leaf "draw_empty", (6, 4)⟩, []⟩

/-- A history state with one undoable and one redoable failing entry. -/
def sampleFailState : HistoryState :=
  ⟨[⟨.SPLIT, failCall⟩], ⟨.leaf "draw_empty", (6, 4)⟩, [⟨.SPLIT, failCall⟩]⟩

/-- A builder (ignoring the present, like the source's `(l, f) => …`
closures with captured arguments) producing the succeeding command. -/
def sampleBuilder : Layout → FigSize → ApiCall := fun _ _ => sampleCall

/-- A builder producing the failing command. -/
def failBuilder : Layout → FigSize → ApiCall := fun _ _ => failCall

/-! ### Claims -/

/-- C1: for every operation kind and reversible command whose `do()`
deterministically succeeds, `executeAction` followed by `undo()` followed
by `redo()` yields a present state (layout and figsize) structurally
equal to the present state immediately after the original
`executeAction`.  (This holds whether or not the `undo()` succeeds: a
failed `undo()` leaves the post-execute state in place and `redo()` is
then a no-op on the empty future.) -/
theorem claim1_execute_undo_redo (s : HistoryState) (t : HistoryActionType)
    (b : Layout → FigSize → ApiCall) (r : FullResponse)
    (h : (b s.present.layout s.present.figsize).doResult = some r) :
    (historyRedo (historyUndo (executeAction s t b).state).state).state.present
      = (executeAction s t b).state.present := by
  rw [executeAction_success s t b r h]
  dsimp only
  have hlast := jsSliceLast_concat_getLast? 50 (by omega) s.past
    (⟨t, b s.present.layout s.present.figsize⟩ : HistoryDelta)
  cases hc : (b s.present.layout s.present.figsize).undoResult with
  | none => simp [historyUndo, historyRedo, hlast, hc]
  | some u => simp [historyUndo, historyRedo, historyReducer, hlast, hc, h]

/-- C1 witness: a concrete execute–undo–redo round trip restores the
post-execute present. -/
theorem claim1_witness :
    (sampleBuilder sampleState.present.layout sampleState.present.figsize).doResult
        = some sampleResponse
  ∧ (historyRedo (historyUndo
        (executeAction sampleState .SPLIT sampleBuilder).state).state).state.present
      = (executeAction sampleState .SPLIT sampleBuilder).state.present :=
  ⟨rfl, claim1_execute_undo_redo sampleState .SPLIT sampleBuilder sampleResponse rfl⟩

/-- C2: when the remote call made by `executeAction`'s `do()`, by
`undo()`'s `undo()`, or by `redo()`'s `do()` fails (returns `null`), the
entire history state is unchanged, the failure is surfaced as `null`,
and exactly one remote round trip was made (no retry). -/
theorem claim2_failure_leaves_state :
    (∀ (s : HistoryState) (t : HistoryActionType) (b : Layout → FigSize → ApiCall),
        (b s.present.layout s.present.figsize).doResult = none →
        executeAction s t b = ⟨none, s, 1⟩)
  ∧ (∀ (s : HistoryState) (delta : HistoryDelta),
        s.past.getLast? = some delta → delta.call.undoResult = none →
        historyUndo s = ⟨none, s, 1⟩)
  ∧ (∀ (s : HistoryState) (delta : HistoryDelta),
        s.future.head? = some delta → delta.call.doResult = none →
        historyRedo s = ⟨none, s, 1⟩) := by
  refine ⟨fun s t b h => ?_, fun s delta h1 h2 => ?_, fun s delta h1 h2 => ?_⟩
  · simp [executeAction, h]
  · simp [historyUndo, h1, h2]
  · simp [historyRedo, h1, h2]

/-- C2 witness: a failing `do()`, `undo()` and `redo()` each surface
`null`, leave a concrete state unchanged, and make one remote call. -/
theorem claim2_witness :
    executeAction sampleFailState .SPLIT failBuilder = ⟨none, sampleFailState, 1⟩
  ∧ historyUndo sampleFailState = ⟨none, sampleFailState, 1⟩
  ∧ historyRedo sampleFailState = ⟨none, sampleFailState, 1⟩ :=
  ⟨claim2_failure_leaves_state.1 sampleFailState .SPLIT failBuilder rfl,
   claim2_failure_leaves_state.2.1 sampleFailState ⟨.SPLIT, failCall⟩ rfl rfl,
   claim2_failure_leaves_state.2.2 sampleFailState ⟨.SPLIT, failCall⟩ rfl rfl⟩

/-- C3: a successful `executeAction` appends `{kind, command}` to `past`
keeping only the most recent 50 entries, installs the service-returned
layout/figsize as the present, and clears `future`; consequently after
more than 50 successfully executed edits from an empty past,
`past.length` is exactly 50. -/
theorem claim3_push_bounded :
    (∀ (s : HistoryState) (t : HistoryActionType)
        (b : Layout → FigSize → ApiCall) (r : FullResponse),
        (b s.present.layout s.present.figsize).doResult = some r →
        executeAction s t b =
          ⟨some r,
           ⟨jsSliceLast 50 (s.past ++ [⟨t, b s.present.layout s.present.figsize⟩]),
            ⟨r.layout, r.figsize⟩, []⟩, 1⟩)
  ∧ (∀ (s : HistoryState)
        (ops : List (HistoryActionType × (Layout → FigSize → ApiCall))),
        s.past = [] → 50 < ops.length →
        (∀ p ∈ ops, ∀ l f, ((p.2) l f).doResult.isSome) →
        (execList s ops).past.length = 50) := by
  refine ⟨executeAction_success, fun s ops h0 hlen hall => ?_⟩
  rw [execList_past_length ops s (by rw [h0]; simp) hall, h0]
  simp only [List.length_nil, Nat.zero_add]
  omega

/-- C3 witness: one concrete successful push has the stated shape, and 51
successful edits from an empty past leave exactly 50 past entries. -/
theorem claim3_witness :
    executeAction sampleState .SPLIT sampleBuilder =
      ⟨some sampleResponse,
       ⟨jsSliceLast 50 (sampleState.past ++ [⟨.SPLIT, sampleCall⟩]),
        ⟨sampleResponse.layout, sampleResponse.figsize⟩, []⟩, 1⟩
  ∧ (execList sampleState (List.replicate 51 (.SPLIT, sampleBuilder))).past.length = 50 :=
  ⟨claim3_push_bounded.1 sampleState .SPLIT sampleBuilder sampleResponse rfl,
   claim3_push_bounded.2 sampleState (List.replicate 51 (.SPLIT, sampleBuilder)) rfl
     (by simp)
     (fun p hp l f => by
       rw [List.eq_of_mem_replicate hp]
       rfl)⟩

/-- C4: dispatching the distinguished RESET action with a given
layout/figsize empties both `past` and `future` and installs the given
pair as the new present — in particular reset pushes no history entry
(the resulting past is empty), so it is not undoable. -/
theorem claim4_reset_clears (s : HistoryState) (layout : Layout) (figsize : FigSize) :
    historyReducer s (.reset layout figsize) = ⟨[], ⟨layout, figsize⟩, []⟩ := rfl

/-- A tree whose left leaf has a split sibling (C5's counterexample). -/
def siblingSplitLayout : Layout :=
  .node .row (.leaf "draw_empty") (.node .row (.leaf "b") (.leaf "c") (50, 50)) (50, 50)

/-- A tree whose left child is itself a split (C7's rejection case). -/
def splitChildLayout : Layout :=
  .node .row (.node .column (.leaf "a") (.leaf "b") (30, 70)) (.leaf "c") (50, 50)

/-- C5 counterexample: `[0]` is a valid non-empty path of
`siblingSplitLayout`, whose sibling `[1]` is a Split; the claim says
`delete([0])` replaces the parent (the root) with that sibling subtree,
but `handleDelete` reads the sibling with `getLeaf` and throws instead of
collapsing. -/
theorem claim5_counterexample :
    getAt siblingSplitLayout [0] = .ok (.leaf "draw_empty")
  ∧ handleDelete siblingSplitLayout [0]
      = .error "Invalid path: must be string at end"
  ∧ handleDelete siblingSplitLayout [0]
      ≠ .ok (.node .row (.leaf "b") (.leaf "c") (50, 50)) :=
  ⟨rfl, rfl, fun hc => Except.noConfusion hc⟩

/-- C5 (amended): for every tree and every valid non-empty path
`pp ++ [ix]` whose sibling subtree is a Leaf, `delete` replaces the
parent of the path (the node at `pp`) with that sibling leaf. -/
theorem claim5_delete_collapses (layout : Layout) (pp : LPath) (ix : Nat) (v : String)
    (hsib : getLeaf layout (pp ++ [if ix = 0 then 1 else 0]) = .ok v) :
    ∃ t', specReplaceAt layout pp (.leaf v) = some t' ∧
      handleDelete layout (pp ++ [ix]) = .ok t' := by
  have hlastd : (pp ++ [ix]).getLastD 0 = ix := by
    simp [List.getLastD_eq_getLast?, List.getLast?_concat]
  rcases pp.eq_nil_or_concat' with rfl | ⟨q, pix, rfl⟩
  · refine ⟨.leaf v, specReplaceAt_nil _ _, ?_⟩
    simp only [List.nil_append] at hsib ⊢
    simp [handleDelete, hsib]
  · obtain hga := getLeaf_eq_ok.mp hsib
    rw [getAt_append] at hga
    cases hp : getAt layout (q ++ [pix]) with
    | error e => simp [hp] at hga
    | ok T =>
      obtain ⟨t', hspec, hset⟩ :=
        setChildOfNodeAt_spec q layout pix (fun _ => .leaf v) T hp
      refine ⟨t', hspec, ?_⟩
      have hemp : (((q ++ [pix]) ++ [ix]).isEmpty) = false := by simp
      have hemp2 : ((q ++ [pix]).isEmpty) = false := by simp
      have hgetd : ((q ++ [pix]) ++ [ix]).getD (((q ++ [pix]) ++ [ix]).length - 2) 0
          = pix := by
        have hlen : ((q ++ [pix]) ++ [ix]).length - 2 = q.length := by
          simp
        rw [hlen, List.append_assoc]
        simp [List.getD, List.getElem?_append_right, List.getElem_append_right]
      unfold handleDelete
      simp only [hemp, Bool.false_eq_true, if_false, List.dropLast_concat, hlastd,
        hsib, hemp2, hgetd]
      exact hset

/-- C5 witness: the spec's scenario — deleting `[0]` from
`Split(Row, Leaf "draw_empty", Leaf "draw_scatter", (50,50))` collapses
the root into `Leaf "draw_scatter"`. -/
theorem claim5_witness :
    getLeaf sampleLayout ([] ++ [if 0 = 0 then 1 else 0]) = .ok "draw_scatter"
  ∧ ∃ t', specReplaceAt sampleLayout [] (.leaf "draw_scatter") = some t' ∧
      handleDelete sampleLayout ([] ++ [0]) = .ok t' :=
  ⟨rfl, claim5_delete_collapses sampleLayout [] 0 "draw_scatter" rfl⟩

/-- C6: for every tree and every path addressing a node (including the
empty root path), `split(path, orientation)` replaces the node at `path`
with a Split of that orientation whose two children both equal the
original node, ratio `(50, 50)`. -/
theorem claim6_split_replaces (layout : Layout) (path : LPath) (orient : Orient)
    (orig : Layout) (h : getAt layout path = .ok orig) :
    ∃ t', specReplaceAt layout path (.node orient orig orig (50, 50)) = some t' ∧
      handleSplit layout path orient = .ok t' := by
  rcases path.eq_nil_or_concat' with rfl | ⟨p, ix, rfl⟩
  · simp only [getAt, Except.ok.injEq] at h
    subst h
    exact ⟨.node orient layout layout (50, 50), specReplaceAt_nil _ _, rfl⟩
  · obtain ⟨t', hspec, hset⟩ := setChildOfNodeAt_spec p layout ix
      (fun currentLeaf => .node orient currentLeaf currentLeaf (50, 50)) orig h
    refine ⟨t', hspec, ?_⟩
    have hemp : ((p ++ [ix]).isEmpty) = false := by simp
    have hlastd : (p ++ [ix]).getLastD 0 = ix := by
      simp [List.getLastD_eq_getLast?, List.getLast?_concat]
    unfold handleSplit updateAtSubPath
    simp only [hemp, Bool.false_eq_true, if_false, List.dropLast_concat, hlastd]
    exact hset

/-- C6 witness: the spec's scenario — `split([], Row)` on
`Leaf "draw_empty"` yields the symmetric (50,50) row split. -/
theorem claim6_witness :
    getAt (.leaf "draw_empty") [] = .ok (.leaf "draw_empty")
  ∧ ∃ t', specReplaceAt (.leaf "draw_empty") []
        (.node .row (.leaf "draw_empty") (.leaf "draw_empty") (50, 50)) = some t' ∧
      handleSplit (.leaf "draw_empty") [] .row = .ok t' :=
  ⟨rfl, claim6_split_replaces (.leaf "draw_empty") [] .row (.leaf "draw_empty") rfl⟩

/-- C7: the reversible delete command built from a tree issues
`delete(path)` as its `do()` and
`insert(path, parentOrientation, parentRatios, deletedLeaf)` as its
`undo()`, where the orientation/ratios come from the parent of `path`
and the deleted leaf is the pre-delete leaf at `path`; building the
command fails with an invalid-path error when the node at `path` is a
Split. -/
theorem claim7_delete_command (layout : Layout) (path : LPath) (parent : LayoutNode)
    (hparent : getNode layout path.dropLast = .ok parent) :
    (∀ v, getAt layout path = .ok (.leaf v) →
        apiCallsDelete layout path
          = .ok ⟨.deleteReq path, .insertReq path parent.orient parent.ratios v⟩)
  ∧ (∀ o a b rs, getAt layout path = .ok (.node o a b rs) →
        apiCallsDelete layout path = .error "Invalid path: must be string at end") := by
  have hga := getNode_eq_ok hparent
  rcases path.eq_nil_or_concat' with rfl | ⟨p, ix, rfl⟩
  · simp only [List.dropLast_nil] at hparent hga
    simp only [getAt, Except.ok.injEq] at hga
    constructor
    · intro v hv
      simp only [getAt, Except.ok.injEq] at hv
      rw [hv] at hga
      simp [LayoutNode.toLayout] at hga
    · intro o a b rs hv
      simp [apiCallsDelete, hparent, jsSliceLast, getLeaf, getAt,
        LayoutNode.toLayout]
  · rw [List.dropLast_concat] at hparent hga
    have hsl : jsSliceLast 1 (p ++ [ix]) = [ix] := by
      unfold jsSliceLast
      have hlen : (p ++ [ix]).length - 1 = p.length := by simp
      rw [hlen, List.drop_append_of_le_length (le_refl _)]
      simp
    have hsplit : getAt layout (p ++ [ix]) = getAt parent.toLayout [ix] := by
      rw [getAt_append, hga]
    constructor
    · intro v hv
      rw [hsplit] at hv
      have hleaf : getLeaf parent.toLayout [ix] = .ok v := getLeaf_eq_ok.mpr hv
      simp [apiCallsDelete, List.dropLast_concat, hparent, hsl, hleaf]
    · intro o a b rs hv
      rw [hsplit] at hv
      have hleaf := getLeaf_of_node hv
      simp [apiCallsDelete, List.dropLast_concat, hparent, hsl, hleaf]

/-- C7 witness: the delete command for `[0]` of the sample layout pairs
`delete([0])` with `insert([0], row, (50,50), "draw_empty")`, and
building the command for the split child `[0]` of `splitChildLayout`
fails with the invalid-path error. -/
theorem claim7_witness :
    getNode sampleLayout ([0] : LPath).dropLast
        = .ok ⟨.row, .leaf "draw_empty", .leaf "draw_scatter", (50, 50)⟩
  ∧ apiCallsDelete sampleLayout [0]
      = .ok ⟨.deleteReq [0], .insertReq [0] .row (50, 50) "draw_empty"⟩
  ∧ apiCallsDelete splitChildLayout [0]
      = .error "Invalid path: must be string at end" :=
  ⟨rfl,
   (claim7_delete_command sampleLayout [0]
      ⟨.row, .leaf "draw_empty", .leaf "draw_scatter", (50, 50)⟩ rfl).1
     "draw_empty" rfl,
   (claim7_delete_command splitChildLayout [0]
      ⟨.row, .node .column (.leaf "a") (.leaf "b") (30, 70), .leaf "c", (50, 50)⟩ rfl).2
     .column (.leaf "a") (.leaf "b") (30, 70) rfl⟩

/-- C8: `swap` with identical path ids, and `merge` with identical path
ids or with ids whose `slice(0, -2)` parents coincide (already siblings),
return before building a command: the history state is unchanged and no
remote call is made (so nothing is pushed). -/
theorem claim8_noop_guards (s : HistoryState) (pA pB : String)
    (swapCall mergeCall : LPath → LPath → ApiCall) :
    (pA = pB → actionsSwap s pA pB swapCall = (s, 0)
      ∧ actionsMerge s pA pB mergeCall = (s, 0))
  ∧ (jsDropRight pA 2 = jsDropRight pB 2 → actionsMerge s pA pB mergeCall = (s, 0)) := by
  constructor
  · intro h
    subst h
    exact ⟨by simp [actionsSwap], by simp [actionsMerge]⟩
  · intro h
    by_cases he : pA = pB
    · subst he
      simp [actionsMerge]
    · simp [actionsMerge, he, h]

/-- C8 witness: identical ids are no-ops for swap and merge, and the
sibling ids `panel-0-0` / `panel-0-1` are a no-op for merge. -/
theorem claim8_witness :
    actionsSwap sampleState "panel-0" "panel-0" (fun _ _ => sampleCall)
        = (sampleState, 0)
  ∧ actionsMerge sampleState "panel-0" "panel-0" (fun _ _ => sampleCall)
        = (sampleState, 0)
  ∧ actionsMerge sampleState "panel-0-0" "panel-0-1" (fun _ _ => sampleCall)
        = (sampleState, 0) :=
  ⟨((claim8_noop_guards sampleState "panel-0" "panel-0"
      (fun _ _ => sampleCall) (fun _ _ => sampleCall)).1 rfl).1,
   ((claim8_noop_guards sampleState "panel-0" "panel-0"
      (fun _ _ => sampleCall) (fun _ _ => sampleCall)).1 rfl).2,
   (claim8_noop_guards sampleState "panel-0-0" "panel-0-1"
      (fun _ _ => sampleCall) (fun _ _ => sampleCall)).2 rfl⟩

/-- The epsilon is positive (used to discharge witness hypotheses). -/
lemma eps_pos : (0 : ℚ) < RESIZE_EPSILON := by norm_num [RESIZE_EPSILON]

/-- An unchanged component is within epsilon of itself. -/
lemma abs_sub_self_le_eps (a : ℚ) : |a - a| ≤ RESIZE_EPSILON := by
  rw [sub_self, abs_zero]
  exact le_of_lt eps_pos

/-- C9: a resize proposal both of whose components are within
`RESIZE_EPSILON` of the addressed Split's current ratios is filtered out:
`restructureCallback` returns before scheduling any debounced update, so
no RESTRUCTURE history entry or server call can result from it. -/
theorem claim9_epsilon_filtered (layout : Layout)
    (rowRestructure columnRestructure : Option (String × Ratios))
    (k1 k2 : String) (v1 v2 : ℚ) (parentNode : LayoutNode)
    (hnode : getNode layout (parsePathId (jsDropRight k1 2)) = .ok parentNode)
    (h1 : |parentNode.ratios.1 - v1| ≤ RESIZE_EPSILON)
    (h2 : |parentNode.ratios.2 - v2| ≤ RESIZE_EPSILON) :
    restructureCallback layout rowRestructure columnRestructure [(k1, v1), (k2, v2)]
      = .ok .noSchedule := by
  have hd : didResize parentNode.ratios (v1, v2) = false := by
    simp only [didResize, Bool.or_eq_false_iff, decide_eq_false_iff_not, not_lt]
    exact ⟨h1, h2⟩
  simp [restructureCallback, hnode, hd]

/-- C9 witness: proposing the current ratios (50,50) back to the root
split of the sample layout schedules nothing. -/
theorem claim9_witness :
    getNode sampleLayout (parsePathId (jsDropRight "panel-0" 2))
        = .ok ⟨.row, .leaf "draw_empty", .leaf "draw_scatter", (50, 50)⟩
  ∧ restructureCallback sampleLayout none none [("panel-0", 50), ("panel-1", 50)]
      = .ok .noSchedule :=
  ⟨rfl,
   claim9_epsilon_filtered sampleLayout none none "panel-0" "panel-1" 50 50
     ⟨.row, .leaf "draw_empty", .leaf "draw_scatter", (50, 50)⟩ rfl
     (abs_sub_self_le_eps 50) (abs_sub_self_le_eps 50)⟩

/-- C10: the merge command's `undo()`, invoked before its `do()` was ever
called or after its `do()` failed (so `undoData` is still `null`),
returns `null` and issues zero unmerge requests, leaving the command
state unchanged. -/
theorem claim10_merge_undo_guard (env envFail : MergeEnv) :
    mergeUndo env mergeInitialState = (none, mergeInitialState, 0)
  ∧ (envFail.mergeResult = none →
      mergeUndo env (mergeDo envFail mergeInitialState).2
        = (none, mergeInitialState, 0)) := by
  refine ⟨rfl, fun h => ?_⟩
  simp [mergeDo, h, mergeUndo, mergeInitialState]

/-- C10 witness: with a failing merge endpoint, `undo()` before `do()`
and `undo()` after a failed `do()` both return `null` with no unmerge
call. -/
theorem claim10_witness :
    mergeUndo ⟨none, fun _ => none⟩ mergeInitialState
        = (none, mergeInitialState, 0)
  ∧ mergeUndo ⟨none, fun _ => none⟩
        (mergeDo ⟨none, fun _ => none⟩ mergeInitialState).2
        = (none, mergeInitialState, 0) :=
  ⟨(claim10_merge_undo_guard ⟨none, fun _ => none⟩ ⟨none, fun _ => none⟩).1,
   (claim10_merge_undo_guard ⟨none, fun _ => none⟩ ⟨none, fun _ => none⟩).2 rfl⟩

end MplGrid
